import Mathlib

/-!
Shallow embedding of the statistical core of the Experiment-Calculator
repository: `experiment_calculator/core/calculations.py` and
`experiment_calculator/core/validation.py`.

Modelling conventions:
* Python floats are embedded as exact numbers (`ℚ` for purely order/field
  computations so that results can be evaluated by `decide`, `ℝ` where
  transcendental functions occur).
* The string-literal dispatch types of `core/types.py` become closed
  inductive types.
* SciPy / statsmodels special functions that the code calls
  (`stats.norm.cdf`, `stats.norm.ppf`, `stats.t.ppf`) are not part of the
  repository; they are taken as explicit function parameters of the
  embedded definitions.  `np.sqrt` and `np.arcsin` are the exact
  mathematical functions `Real.sqrt` and `Real.arcsin`, and
  `statsmodels.stats.proportion.proportion_effectsize` is embedded by its
  documented closed form (the arcsine "normal method" effect size).
* Python runtime failures (`assert`, calling `np.sqrt(None)`) are embedded
  with `Except`/`Option`.
-/

/-! ## Types (core/types.py) -/

inductive OutcomeType | binary | normal deriving DecidableEq

inductive EffectType | absolute | relative deriving DecidableEq

inductive MTCType | bonferroni | mtcNone deriving DecidableEq

inductive SequentialType | obrienFleming | seqNone deriving DecidableEq

inductive ComparisonType | compareToFirst | compareAllPairs deriving DecidableEq

/-- Error values for Python runtime failures: a failed `assert`, and the
`TypeError` raised when `np.sqrt` is applied to `None`. -/
inductive CalcError | assertionError | typeError deriving DecidableEq

/-- Result record of the confidence-interval functions (core/types.py).
The Python dict stores each value in a singleton list for DataFrame
construction; the singleton wrapper is dropped here. -/
structure ConfidenceIntervalResult where
  point_estimate : ℝ
  ci_lower : ℝ
  ci_upper : ℝ

/-! ## Alpha functions (calculations.py lines 25-87) -/

/-- Embedding of `obrien_fleming_correction(information_fraction, alpha)`:
`(1 - stats.norm.cdf(stats.norm.ppf(1 - alpha / 2) / np.sqrt(information_fraction))) * 2`.
`normCdf` and `normPpf` stand for the external SciPy standard-normal CDF and
inverse CDF. -/
noncomputable def obrien_fleming_correction (normCdf normPpf : ℝ → ℝ)
    (information_fraction : ℝ) (alpha : ℝ) : ℝ :=
  (1 - normCdf (normPpf (1 - alpha / 2) / Real.sqrt information_fraction)) * 2

/-- Embedding of `adjusted_alpha(base_alpha, num_comparisons, multiple_comparisons,
sequential_testing, information_fraction)`.  The Python function
* raises `AssertionError` when `num_comparisons < 1`;
* raises `TypeError` when the O'Brien-Fleming branch is taken with
  `information_fraction=None` (`np.sqrt(None)`);
* otherwise returns a float.
The `information_fraction=None` default is modelled by `Option ℝ`, and the
`sequential_testing` values `None`/`"None"` both map to `seqNone`. -/
noncomputable def adjusted_alpha (normCdf normPpf : ℝ → ℝ) (base_alpha : ℝ)
    (num_comparisons : ℤ) (multiple_comparisons : MTCType)
    (sequential_testing : SequentialType) (information_fraction : Option ℝ) :
    Except CalcError ℝ :=
  if num_comparisons < 1 then Except.error CalcError.assertionError
  else
    let alpha := if multiple_comparisons = MTCType.bonferroni
      then base_alpha / (num_comparisons : ℝ) else base_alpha
    if sequential_testing = SequentialType.obrienFleming then
      match information_fraction with
      | none => Except.error CalcError.typeError
      | some f => Except.ok (max (obrien_fleming_correction normCdf normPpf f alpha) 1e-13)
    else Except.ok alpha

/-! ## Effect size (calculations.py lines 123-184) -/

/-- Embedding of `statsmodels.stats.proportion.proportion_effectsize(prop1, prop2,
method="normal")` by its documented closed form
`2 * (arcsin(sqrt(prop1)) - arcsin(sqrt(prop2)))` (Cohen's arcsine effect size). -/
noncomputable def proportion_effectsize (prop1 prop2 : ℝ) : ℝ :=
  2 * (Real.arcsin (Real.sqrt prop1) - Real.arcsin (Real.sqrt prop2))

/-- Embedding of `binary_effect_size(effect_type, baseline_mean, mde)`.  The
Python `assert effect_type in (...)` is vacuous for the closed enum. -/
noncomputable def binary_effect_size (effect_type : EffectType)
    (baseline_mean mde : ℝ) : ℝ :=
  if effect_type = EffectType.absolute then
    proportion_effectsize (baseline_mean + mde) baseline_mean
  else
    proportion_effectsize ((1 + mde) * baseline_mean) baseline_mean

/-- Python `round(x, 2)` modelled as rounding to the nearest multiple of 1/100.
Python breaks exact ties to even; no statement below sits on a tie, so the
tie-breaking convention is immaterial here. -/
noncomputable def round2 (x : ℝ) : ℝ := ((round (x * 100) : ℤ) : ℝ) / 100

/-- Embedding of `convert_effect_size_for_binary_outcome(effect_type, effect_size,
prop1)`: `delta = effect_size * sqrt(prop1*(1-prop1))`;
`prop2 = np.clip(prop1 + delta, 0, 1)`; return the rounded percentage. -/
noncomputable def convert_effect_size_for_binary_outcome (effect_type : EffectType)
    (effect_size prop1 : ℝ) : ℝ :=
  let delta := effect_size * Real.sqrt (prop1 * (1 - prop1))
  let prop2 := min (max (prop1 + delta) 0) 1
  if effect_type = EffectType.absolute then round2 ((prop2 - prop1) * 100)
  else round2 ((prop2 / prop1 - 1) * 100)

/-! ## Other calcs (calculations.py lines 548-591) -/

/-- Embedding of `design_ratio(ratios)`: `max(ratios)` if it is at least
`1/min(ratios)`, otherwise `min(ratios)`.  Python `max`/`min` raise on an
empty sequence, modelled by `Option`. -/
def design_ratio (ratios : List ℚ) : Option ℚ :=
  match ratios.max?, ratios.min? with
  | some biggest_ratio, some smallest_ratio =>
      if 1 / smallest_ratio ≤ biggest_ratio then some biggest_ratio
      else some smallest_ratio
  | _, _ => none

/-- Embedding of `itertools.combinations(range(n), 2)`: the nested loop
`for i in range(n): for j in range(i+1, n): yield (i, j)`. -/
def combinations2 (n : ℕ) : List (ℕ × ℕ) :=
  (List.range n).flatMap (fun i => (List.range' (i + 1) (n - (i + 1))).map (fun j => (i, j)))

/-- Embedding of `get_comparison_pairs(comparison_type, num_flights)`:
`[(0, i) for i in range(1, num_flights)]` for "Compare to first", and
`list(combinations(range(num_flights), 2))` for "Compare all pairs".
The function performs no validation of `num_flights`. -/
def get_comparison_pairs (comparison_type : ComparisonType) (num_flights : ℕ) :
    List (ℕ × ℕ) :=
  match comparison_type with
  | ComparisonType.compareToFirst => (List.range' 1 (num_flights - 1)).map (fun i => (0, i))
  | ComparisonType.compareAllPairs => combinations2 num_flights

/-- Strict ascending lexicographic order on index pairs. -/
def pairLexLt (p q : ℕ × ℕ) : Prop := p.1 < q.1 ∨ (p.1 = q.1 ∧ p.2 < q.2)

instance : DecidableRel pairLexLt := fun p q =>
  inferInstanceAs (Decidable (p.1 < q.1 ∨ (p.1 = q.1 ∧ p.2 < q.2)))

/-! ## Significance calcs (calculations.py lines 646-854) -/

/-- Embedding of `binomial_standard_error(proportion, sample_size)`:
`np.sqrt(proportion * (1 - proportion) / sample_size)`. -/
noncomputable def binomial_standard_error (proportion : ℝ) (sample_size : ℕ) : ℝ :=
  Real.sqrt (proportion * (1 - proportion) / (sample_size : ℝ))

/-- Embedding of `binomial_confidence_interval(prop1, n1, prop2, n2, confidence,
effect_type)`.  `normPpf` stands for the external `stats.norm.ppf`.  The Python
code mutates `prop_diff` in the relative branch; here the updated value is the
`prop_diff2` binding. -/
noncomputable def binomial_confidence_interval (normPpf : ℝ → ℝ) (prop1 : ℝ)
    (n1 : ℕ) (prop2 : ℝ) (n2 : ℕ) (confidence : ℝ) (effect_type : EffectType) :
    ConfidenceIntervalResult :=
  let prop_diff := prop2 - prop1
  let std_err_1 := binomial_standard_error prop1 n1
  let std_err_2 := binomial_standard_error prop2 n2
  let prop_diff2 := if effect_type = EffectType.relative then prop_diff / prop1 else prop_diff
  let se_diff :=
    if effect_type = EffectType.relative then
      Real.sqrt (1 / prop1 ^ 2 * std_err_2 ^ 2 + prop2 ^ 2 / prop1 ^ 4 * std_err_1 ^ 2)
    else Real.sqrt (std_err_1 ^ 2 + std_err_2 ^ 2)
  let z_crit := normPpf ((1 + confidence) / 2)
  let margin_of_error := z_crit * se_diff
  { point_estimate := prop_diff2
    ci_lower := prop_diff2 - margin_of_error
    ci_upper := prop_diff2 + margin_of_error }

/-- Embedding of `dof_welch_satterthwaithe(stdev1, n1, stdev2, n2)`:
`((s1²/n1)+(s2²/n2))² / ((s1²/n1)²/(n1-1) + (s2²/n2)²/(n2-1))`.
Sample sizes are naturals; `n - 1` is computed after the cast to ℝ, matching
Python integer arithmetic fed into float division. -/
noncomputable def dof_welch_satterthwaithe (stdev1 : ℝ) (n1 : ℕ) (stdev2 : ℝ)
    (n2 : ℕ) : ℝ :=
  ((stdev1 ^ 2 / (n1 : ℝ)) + (stdev2 ^ 2 / (n2 : ℝ))) ^ 2 /
    ((stdev1 ^ 2 / (n1 : ℝ)) ^ 2 / ((n1 : ℝ) - 1) +
      (stdev2 ^ 2 / (n2 : ℝ)) ^ 2 / ((n2 : ℝ) - 1))

/-- Embedding of `normal_confidence_interval(mean1, stdev1, n1, mean2, stdev2,
n2, confidence, effect_type)`.  `tPpf q dof` stands for the external
`stats.t.ppf(q, dof)`. -/
noncomputable def normal_confidence_interval (tPpf : ℝ → ℝ → ℝ) (mean1 stdev1 : ℝ)
    (n1 : ℕ) (mean2 stdev2 : ℝ) (n2 : ℕ) (confidence : ℝ)
    (effect_type : EffectType) : ConfidenceIntervalResult :=
  let mean_diff := mean2 - mean1
  let std_err_1 := stdev1 / Real.sqrt (n1 : ℝ)
  let std_err_2 := stdev2 / Real.sqrt (n2 : ℝ)
  let mean_diff2 := if effect_type = EffectType.relative then mean_diff / mean1 else mean_diff
  let std_err_diff :=
    if effect_type = EffectType.relative then
      Real.sqrt (1 / mean1 ^ 2 * std_err_2 ^ 2 + mean2 ^ 2 / mean1 ^ 4 * std_err_1 ^ 2)
    else Real.sqrt (std_err_1 ^ 2 + std_err_2 ^ 2)
  let dof := dof_welch_satterthwaithe stdev1 n1 stdev2 n2
  let t_crit := tPpf ((1 + confidence) / 2) dof
  let margin_of_error := t_crit * std_err_diff
  { point_estimate := mean_diff2
    ci_lower := mean_diff2 - margin_of_error
    ci_upper := mean_diff2 + margin_of_error }

/-! ## Validation (core/validation.py) -/

/-- One row of the experiment summary table.  Binary-outcome tables populate
`sample_size` and `num_successes`; normal-outcome tables populate
`sample_size`, `mean` and `stdDev`. -/
structure SummaryRow where
  sample_size : ℚ
  num_successes : ℚ
  mean : ℚ
  stdDev : ℚ
  deriving DecidableEq

/-- Embedding of `valid_summary_data(summary_data, outcome_type)`: all sample
sizes positive; for binary outcomes all success counts non-negative; for
normal outcomes all means and standard deviations non-negative. -/
def valid_summary_data (summary_data : List SummaryRow) (outcome_type : OutcomeType) :
    Bool :=
  let all_samples_valid := summary_data.all (fun r => decide (0 < r.sample_size))
  match outcome_type with
  | OutcomeType.binary =>
      all_samples_valid && summary_data.all (fun r => decide (0 ≤ r.num_successes))
  | OutcomeType.normal =>
      all_samples_valid && summary_data.all (fun r => decide (0 ≤ r.mean)) &&
        summary_data.all (fun r => decide (0 ≤ r.stdDev))

/-! ## Theorems -/

/-- Unfolding lemma for `design_ratio` in terms of the computed maximum and
minimum of the ratio list. -/
theorem design_ratio_eq (l : List ℚ) (M m : ℚ)
    (hM : l.max? = some M) (hm : l.min? = some m) :
    design_ratio l = if 1 / m ≤ M then some M else some m := by
  unfold design_ratio
  rw [hM, hm]

/-- Maximum of the test ratio list (1, 3/4, 3/4). -/
theorem testRatios_max : ([1, 3/4, 3/4] : List ℚ).max? = some 1 := by
  have h1 : max (1 : ℚ) (3/4) = 1 := max_eq_left (by norm_num)
  simp [List.max?, h1]

/-- Minimum of the test ratio list (1, 3/4, 3/4). -/
theorem testRatios_min : ([1, 3/4, 3/4] : List ℚ).min? = some (3/4) := by
  have h1 : min (1 : ℚ) (3/4) = 3/4 := min_eq_right (by norm_num)
  simp [List.min?, h1]

/-- C1 counterexample: for the ratios (1, 3/4, 3/4) — the allocation of the
repository's own multi-group integration test — `design_ratio` returns the
smallest ratio 3/4, not the larger of max(ratios) = 1 and 1/min(ratios) = 4/3
as the claim states. -/
theorem design_ratio_counterexample :
    design_ratio [1, 3/4, 3/4] = some (3/4) ∧
      design_ratio [1, 3/4, 3/4] ≠ some (max 1 (1 / (3/4))) := by
  have h := design_ratio_eq [1, 3/4, 3/4] 1 (3/4) testRatios_max testRatios_min
  rw [if_neg (by norm_num)] at h
  refine ⟨h, ?_⟩
  rw [h, max_eq_right (by norm_num : (1 : ℚ) ≤ 1 / (3/4))]
  intro hcontra
  have := Option.some.inj hcontra
  norm_num at this

/-- C1 (amended): when the ratios have maximum `M` and minimum `m`,
`design_ratio` returns `M` if `1/m ≤ M` and otherwise returns `m` itself (not
`1/m`); in either case the returned value is one of the given ratios. -/
theorem design_ratio_spec (l : List ℚ) (M m : ℚ)
    (hM : l.max? = some M) (hm : l.min? = some m) :
    design_ratio l = (if 1 / m ≤ M then some M else some m) ∧
      ∀ r : ℚ, design_ratio l = some r → r ∈ l := by
  have heq := design_ratio_eq l M m hM hm
  refine ⟨heq, ?_⟩
  intro r hr
  rw [heq] at hr
  by_cases h : 1 / m ≤ M
  · rw [if_pos h] at hr
    cases Option.some.inj hr
    exact List.max?_mem max_choice hM
  · rw [if_neg h] at hr
    cases Option.some.inj hr
    exact List.min?_mem min_choice hm

/-- C1 witness: the amended statement instantiated on the concrete ratio list
(1, 3/4, 3/4). -/
theorem design_ratio_spec_witness :
    ([1, 3/4, 3/4] : List ℚ).max? = some 1 ∧
      ([1, 3/4, 3/4] : List ℚ).min? = some (3/4) ∧
      design_ratio [1, 3/4, 3/4] = (if 1 / (3/4 : ℚ) ≤ 1 then some 1 else some (3/4)) :=
  ⟨testRatios_max, testRatios_min,
    (design_ratio_spec [1, 3/4, 3/4] 1 (3/4) testRatios_max testRatios_min).1⟩

/-- C2 counterexample: with fewer than two groups, `get_comparison_pairs`
returns the empty list normally instead of failing with InvalidArgument —
the function performs no validation of its `num_flights` argument. -/
theorem get_comparison_pairs_counterexample :
    get_comparison_pairs ComparisonType.compareToFirst 1 = [] ∧
      get_comparison_pairs ComparisonType.compareAllPairs 1 = [] := ⟨rfl, rfl⟩

/-- Membership characterisation of the pair list produced by
`itertools.combinations(range(n), 2)`. -/
theorem mem_combinations2 (n : ℕ) (p : ℕ × ℕ) :
    p ∈ combinations2 n ↔ p.1 < p.2 ∧ p.2 < n := by
  rcases p with ⟨i, j⟩
  unfold combinations2
  simp only [List.mem_flatMap, List.mem_range, List.mem_map, List.mem_range'_1,
    Prod.mk.injEq]
  constructor
  · rintro ⟨a, ha, b, ⟨hb1, hb2⟩, rfl, rfl⟩
    omega
  · rintro ⟨hij, hjn⟩
    exact ⟨i, by omega, j, ⟨by omega, by omega⟩, rfl, rfl⟩

/-- Summing a function shifted by one over a list. -/
theorem sum_map_succ_aux (l : List ℕ) (h : ℕ → ℕ) :
    (l.map (fun i => h i + 1)).sum = (l.map h).sum + l.length := by
  induction l with
  | nil => simp
  | cons a t ih =>
    simp only [List.map_cons, List.sum_cons, ih, List.length_cons]
    omega

/-- Gauss-style count: the inner loop of `combinations2` executes
`n - (i+1)` steps for each `i < n`, totalling `n choose 2`. -/
theorem sum_range_sub (n : ℕ) :
    ((List.range n).map (fun i => n - (i + 1))).sum = n.choose 2 := by
  induction n with
  | zero => simp
  | succ n ih =>
    rw [List.sum_range_succ]
    have hcongr : (List.range n).map (fun i => n + 1 - (i + 1)) =
        (List.range n).map (fun i => (n - (i + 1)) + 1) := by
      apply List.map_congr_left
      intro a ha
      have := List.mem_range.mp ha
      omega
    rw [hcongr, sum_map_succ_aux, ih, List.length_range]
    have h0 : n + 1 - (n + 1) = 0 := by omega
    rw [h0]
    have hch : (n + 1).choose 2 = n.choose 1 + n.choose 2 := Nat.choose_succ_succ n 1
    rw [hch, Nat.choose_one_right]
    omega

/-- Length of the combinations list. -/
theorem length_combinations2 (n : ℕ) : (combinations2 n).length = n.choose 2 := by
  have h : (combinations2 n).length = ((List.range n).map (fun i => n - (i + 1))).sum := by
    simp only [combinations2, List.flatMap, List.length_flatten, List.map_map]
    apply congrArg List.sum
    apply List.map_congr_left
    intro a _
    simp
  rw [h, sum_range_sub]

/-- The combinations list is strictly ascending in lexicographic order. -/
theorem pairwise_combinations2 (n : ℕ) : (combinations2 n).Pairwise pairLexLt := by
  unfold combinations2
  rw [List.pairwise_flatMap]
  constructor
  · intro a _
    rw [List.pairwise_map]
    apply List.Pairwise.imp ?_ (List.pairwise_lt_range' (a + 1) (n - (a + 1)))
    intro x y hxy
    exact Or.inr ⟨rfl, hxy⟩
  · apply List.Pairwise.imp ?_ (List.pairwise_lt_range n)
    intro a b hab
    intro x hx y hy
    rcases List.mem_map.mp hx with ⟨jx, _, rfl⟩
    rcases List.mem_map.mp hy with ⟨jy, _, rfl⟩
    exact Or.inl hab

/-- Shape of the Compare-to-first pair list. -/
theorem compare_to_first_eq (n : ℕ) :
    get_comparison_pairs ComparisonType.compareToFirst n =
      (List.range (n - 1)).map (fun i => (0, i + 1)) := by
  unfold get_comparison_pairs
  rw [List.range'_eq_map_range, List.map_map]
  apply List.map_congr_left
  intro a _
  simp [Function.comp, Nat.add_comm]

/-- C2 (amended): for numGroups ≥ 2, Compare-to-first yields [(0,i) for i in
1..numGroups-1], and Compare-all-pairs yields exactly the C(numGroups, 2)
unordered index pairs in ascending lexicographic order (for numGroups = 3:
(0,1), (0,2), (1,2)); for numGroups < 2 both modes return the empty list
rather than failing with InvalidArgument. -/
theorem get_comparison_pairs_spec (n : ℕ) (_hn : 2 ≤ n) :
    get_comparison_pairs ComparisonType.compareToFirst n
        = (List.range (n - 1)).map (fun i => (0, i + 1))
    ∧ (∀ p : ℕ × ℕ,
        p ∈ get_comparison_pairs ComparisonType.compareAllPairs n ↔ p.1 < p.2 ∧ p.2 < n)
    ∧ (get_comparison_pairs ComparisonType.compareAllPairs n).length = n.choose 2
    ∧ (get_comparison_pairs ComparisonType.compareAllPairs n).Pairwise pairLexLt
    ∧ get_comparison_pairs ComparisonType.compareAllPairs 3 = [(0, 1), (0, 2), (1, 2)]
    ∧ (∀ m : ℕ, m < 2 → get_comparison_pairs ComparisonType.compareToFirst m = []
        ∧ get_comparison_pairs ComparisonType.compareAllPairs m = []) := by
  refine ⟨compare_to_first_eq n, fun p => mem_combinations2 n p, length_combinations2 n,
    pairwise_combinations2 n, rfl, ?_⟩
  intro m hm
  have hm01 : m = 0 ∨ m = 1 := by omega
  rcases hm01 with rfl | rfl
  · exact ⟨rfl, rfl⟩
  · exact ⟨rfl, rfl⟩

/-- C2 witness: the amended statement instantiated at numGroups = 3. -/
theorem get_comparison_pairs_spec_witness :
    2 ≤ 3 ∧ (get_comparison_pairs ComparisonType.compareAllPairs 3).length = Nat.choose 3 2 :=
  ⟨by decide, (get_comparison_pairs_spec 3 (by decide)).2.2.1⟩

/-- C3 counterexample: with numComparisons = 1 and O'Brien-Fleming requested
with informationFraction = 2 ∉ (0, 1], `adjusted_alpha` returns a value
without error, although the claim says it must fail. -/
theorem adjusted_alpha_counterexample :
    (adjusted_alpha (fun x => x) (fun x => x) (1/20) 1 MTCType.mtcNone
      SequentialType.obrienFleming (some 2)).isOk = true := rfl

/-- C3 (amended): `adjusted_alpha` fails exactly when numComparisons < 1 or
O'Brien-Fleming sequential testing is requested with no informationFraction
provided; any provided informationFraction — also one outside (0, 1] — is fed
to the correction formula and a value is returned. -/
theorem adjusted_alpha_error_iff (normCdf normPpf : ℝ → ℝ) (a : ℝ) (k : ℤ)
    (m : MTCType) (s : SequentialType) (f : Option ℝ) :
    (adjusted_alpha normCdf normPpf a k m s f).isOk = false ↔
      (k < 1 ∨ (s = SequentialType.obrienFleming ∧ f = none)) := by
  unfold adjusted_alpha
  by_cases hk : k < 1
  · simp [hk, Except.isOk, Except.toBool]
  · cases s <;> cases f <;> simp [hk, Except.isOk, Except.toBool]

/-- C4: for numComparisons ≥ 1, `adjusted_alpha` first computes
alpha = baseAlpha/numComparisons under Bonferroni and alpha = baseAlpha under
None; with no sequential testing it returns that alpha, and under
O'Brien-Fleming with information fraction v ∈ (0, 1] it returns
max(2·(1 − Φ(Φ⁻¹(1 − alpha/2)/√v)), 1e-13), where Φ is the standard-normal
CDF (the `normCdf`/`normPpf` parameters). -/
theorem adjusted_alpha_value_spec (normCdf normPpf : ℝ → ℝ) (a : ℝ) (k : ℤ)
    (v : ℝ) (f : Option ℝ) (hk : 1 ≤ k) (_hv0 : 0 < v) (_hv1 : v ≤ 1) :
    adjusted_alpha normCdf normPpf a k MTCType.bonferroni SequentialType.seqNone f
        = Except.ok (a / (k : ℝ))
    ∧ adjusted_alpha normCdf normPpf a k MTCType.mtcNone SequentialType.seqNone f
        = Except.ok a
    ∧ adjusted_alpha normCdf normPpf a k MTCType.bonferroni SequentialType.obrienFleming (some v)
        = Except.ok
            (max (2 * (1 - normCdf (normPpf (1 - (a / (k : ℝ)) / 2) / Real.sqrt v))) 1e-13)
    ∧ adjusted_alpha normCdf normPpf a k MTCType.mtcNone SequentialType.obrienFleming (some v)
        = Except.ok
            (max (2 * (1 - normCdf (normPpf (1 - a / 2) / Real.sqrt v))) 1e-13) := by
  have hk' : ¬ (k < 1) := by omega
  refine ⟨?_, ?_, ?_, ?_⟩
  · simp [adjusted_alpha, hk']
  · simp [adjusted_alpha, hk']
  · simp [adjusted_alpha, obrien_fleming_correction, hk', mul_comm]
  · simp [adjusted_alpha, obrien_fleming_correction, hk', mul_comm]

/-- C4 witness: the value specification instantiated at base alpha 1/2,
numComparisons 2, information fraction 1 and identity stand-ins for the
external normal CDF and quantile. -/
theorem adjusted_alpha_value_spec_witness :
    1 ≤ (2 : ℤ) ∧ (0 : ℝ) < 1 ∧ (1 : ℝ) ≤ 1 ∧
      adjusted_alpha (fun x => x) (fun x => x) (1/2) 2 MTCType.bonferroni
          SequentialType.seqNone none
        = Except.ok ((1/2 : ℝ) / ((2 : ℤ) : ℝ)) :=
  ⟨by decide, by norm_num, le_refl 1,
    (adjusted_alpha_value_spec (fun x => x) (fun x => x) (1/2) 2 1 none (by decide)
      (by norm_num) (le_refl 1)).1⟩

/-- Squaring a quotient by a square root of a natural number. -/
theorem div_sqrt_sq (s : ℝ) (n : ℕ) :
    (s / Real.sqrt (n : ℝ)) ^ 2 = s ^ 2 / (n : ℝ) := by
  rw [div_pow, Real.sq_sqrt (Nat.cast_nonneg n)]

/-- C6: for normal outcomes (Absolute effect), the code's degrees of freedom
equal the Welch–Satterthwaite expression in the standard errors
se_i = stdev_i/√n_i, the critical value is the inverse Student-t CDF `tPpf`
at that dof evaluated at (1+confidence)/2, and the interval is
diff ± crit·se_diff around the point estimate diff = mean2 − mean1 with
se_diff = √(se₁² + se₂²). -/
theorem normal_confidence_interval_spec (tPpf : ℝ → ℝ → ℝ) (mean1 stdev1 : ℝ)
    (n1 : ℕ) (mean2 stdev2 : ℝ) (n2 : ℕ) (confidence : ℝ) :
    dof_welch_satterthwaithe stdev1 n1 stdev2 n2 =
      ((stdev1 / Real.sqrt (n1 : ℝ)) ^ 2 + (stdev2 / Real.sqrt (n2 : ℝ)) ^ 2) ^ 2 /
        ((stdev1 / Real.sqrt (n1 : ℝ)) ^ 4 / ((n1 : ℝ) - 1) +
          (stdev2 / Real.sqrt (n2 : ℝ)) ^ 4 / ((n2 : ℝ) - 1))
    ∧ normal_confidence_interval tPpf mean1 stdev1 n1 mean2 stdev2 n2 confidence
        EffectType.absolute =
      { point_estimate := mean2 - mean1
        ci_lower := (mean2 - mean1) -
          tPpf ((1 + confidence) / 2) (dof_welch_satterthwaithe stdev1 n1 stdev2 n2) *
            Real.sqrt ((stdev1 / Real.sqrt (n1 : ℝ)) ^ 2 + (stdev2 / Real.sqrt (n2 : ℝ)) ^ 2)
        ci_upper := (mean2 - mean1) +
          tPpf ((1 + confidence) / 2) (dof_welch_satterthwaithe stdev1 n1 stdev2 n2) *
            Real.sqrt ((stdev1 / Real.sqrt (n1 : ℝ)) ^ 2 + (stdev2 / Real.sqrt (n2 : ℝ)) ^ 2) } := by
  constructor
  · unfold dof_welch_satterthwaithe
    rw [show ∀ x : ℝ, x ^ 4 = (x ^ 2) ^ 2 from fun x => by ring,
      show ∀ x : ℝ, x ^ 4 = (x ^ 2) ^ 2 from fun x => by ring,
      div_sqrt_sq stdev1 n1, div_sqrt_sq stdev2 n2]
  · rfl

/-- Helper: a symmetric margin of the form crit·√x keeps the point estimate
inside the interval whenever crit is non-negative. -/
theorem margin_ordering (pe crit x : ℝ) (hcrit : 0 ≤ crit) :
    pe - crit * Real.sqrt x ≤ pe ∧ pe ≤ pe + crit * Real.sqrt x := by
  have h := mul_nonneg hcrit (Real.sqrt_nonneg x)
  constructor <;> linarith

/-- C8: every interval produced by `binomial_confidence_interval` or
`normal_confidence_interval` satisfies ciLower ≤ pointEstimate ≤ ciUpper, for
either effect type, provided the external critical values at (1+confidence)/2
are non-negative — which is exactly what confidence ∈ (0, 1) guarantees for
the true normal and Student-t quantile functions. -/
theorem confidence_interval_ordering (normPpf : ℝ → ℝ) (tPpf : ℝ → ℝ → ℝ)
    (prop1 prop2 mean1 stdev1 mean2 stdev2 confidence : ℝ) (n1 n2 m1 m2 : ℕ)
    (effect_type : EffectType)
    (hz : 0 ≤ normPpf ((1 + confidence) / 2))
    (ht : 0 ≤ tPpf ((1 + confidence) / 2) (dof_welch_satterthwaithe stdev1 m1 stdev2 m2)) :
    ((binomial_confidence_interval normPpf prop1 n1 prop2 n2 confidence effect_type).ci_lower
        ≤ (binomial_confidence_interval normPpf prop1 n1 prop2 n2 confidence
            effect_type).point_estimate
      ∧ (binomial_confidence_interval normPpf prop1 n1 prop2 n2 confidence
            effect_type).point_estimate
        ≤ (binomial_confidence_interval normPpf prop1 n1 prop2 n2 confidence
            effect_type).ci_upper)
    ∧ ((normal_confidence_interval tPpf mean1 stdev1 m1 mean2 stdev2 m2 confidence
            effect_type).ci_lower
        ≤ (normal_confidence_interval tPpf mean1 stdev1 m1 mean2 stdev2 m2 confidence
            effect_type).point_estimate
      ∧ (normal_confidence_interval tPpf mean1 stdev1 m1 mean2 stdev2 m2 confidence
            effect_type).point_estimate
        ≤ (normal_confidence_interval tPpf mean1 stdev1 m1 mean2 stdev2 m2 confidence
            effect_type).ci_upper) := by
  cases effect_type <;>
    · simp only [binomial_confidence_interval, normal_confidence_interval]
      exact ⟨margin_ordering _ _ _ hz, margin_ordering _ _ _ ht⟩

/-- C8 witness: the interval ordering at concrete inputs with constant
stand-ins for the external quantile functions. -/
theorem confidence_interval_ordering_witness :
    (0 : ℝ) ≤ 1 ∧
      (binomial_confidence_interval (fun _ => 1) (1/10) 100 (3/20) 100 (19/20)
          EffectType.absolute).ci_lower
        ≤ (binomial_confidence_interval (fun _ => 1) (1/10) 100 (3/20) 100 (19/20)
            EffectType.absolute).point_estimate :=
  ⟨zero_le_one,
    (confidence_interval_ordering (fun _ => 1) (fun _ _ => 1) (1/10) (3/20) 1 1 2 1
      (19/20) 100 100 50 60 EffectType.absolute zero_le_one zero_le_one).1.1⟩

/-- Square root of one half. -/
theorem sqrt_half : Real.sqrt (1/2 : ℝ) = Real.sqrt 2 / 2 := by
  rw [show (1/2 : ℝ) = 2 / 4 by norm_num, Real.sqrt_div (by norm_num : (0:ℝ) ≤ 2) 4,
    show (4:ℝ) = 2 ^ 2 by norm_num, Real.sqrt_sq (by norm_num : (0:ℝ) ≤ 2)]

/-- Square root of one quarter. -/
theorem sqrt_quarter : Real.sqrt (1/4 : ℝ) = 1/2 := by
  rw [show (1/4 : ℝ) = (1/2) ^ 2 by norm_num, Real.sqrt_sq (by norm_num : (0:ℝ) ≤ 1/2)]

/-- Square root of three sixteenths. -/
theorem sqrt_three_sixteenths : Real.sqrt (3/16 : ℝ) = Real.sqrt 3 / 4 := by
  rw [Real.sqrt_div (by norm_num : (0:ℝ) ≤ 3) 16, show (16:ℝ) = 4 ^ 2 by norm_num,
    Real.sqrt_sq (by norm_num : (0:ℝ) ≤ 4)]

/-- Arcsine of √2/2. -/
theorem arcsin_sqrt_two_div_two : Real.arcsin (Real.sqrt 2 / 2) = Real.pi / 4 := by
  rw [← Real.sin_pi_div_four]
  exact Real.arcsin_sin (by linarith [Real.pi_pos]) (by linarith [Real.pi_pos])

/-- Arcsine of one half. -/
theorem arcsin_one_half : Real.arcsin (1/2 : ℝ) = Real.pi / 6 := by
  rw [← Real.sin_pi_div_six]
  exact Real.arcsin_sin (by linarith [Real.pi_pos]) (by linarith [Real.pi_pos])

/-- Lower numeric bound on √3. -/
theorem sqrt_three_gt : (1.732 : ℝ) < Real.sqrt 3 :=
  (Real.lt_sqrt (by norm_num : (0:ℝ) ≤ 1.732)).mpr (by norm_num)

/-- Upper numeric bound on √3. -/
theorem sqrt_three_lt : Real.sqrt 3 < 1.7321 :=
  (Real.sqrt_lt' (by norm_num : (0:ℝ) < 1.7321)).mpr (by norm_num)

/-- The binary effect size at p = 1/4, mde = 1/4 is exactly π/6. -/
theorem binary_effect_size_quarter :
    binary_effect_size EffectType.absolute (1/4) (1/4) = Real.pi / 6 := by
  have h : binary_effect_size EffectType.absolute (1/4) (1/4)
      = 2 * (Real.arcsin (Real.sqrt ((1/4 : ℝ) + 1/4)) - Real.arcsin (Real.sqrt (1/4 : ℝ))) := rfl
  rw [h, show ((1/4 : ℝ) + 1/4) = 1/2 by norm_num, sqrt_half, sqrt_quarter,
    arcsin_sqrt_two_div_two, arcsin_one_half]
  ring

/-- C7 counterexample: at p = 1/4 and mde = 1/4 (so p + mde = 1/2 and the pair
satisfies the claim's domain conditions), the round-trip through
`binary_effect_size` and `convert_effect_size_for_binary_outcome` returns
22.67, while mde·100 = 25 — off by 2.33, far outside the 2-decimal rounding
tolerance.  The forward map is the arcsine transform, the inverse is only its
first-order (delta-method) linearisation, so the composition is not the
identity. -/
theorem binary_roundtrip_counterexample :
    convert_effect_size_for_binary_outcome EffectType.absolute
        (binary_effect_size EffectType.absolute (1/4) (1/4)) (1/4) = 2267/100
    ∧ (1 : ℝ) < |(2267/100 : ℝ) - 25| := by
  have h3l := sqrt_three_gt
  have h3u := sqrt_three_lt
  have hpl := Real.pi_gt_d4
  have hpu := Real.pi_lt_d4
  have hdl : (0.2267 : ℝ) < Real.pi * Real.sqrt 3 / 24 := by nlinarith
  have hdu : Real.pi * Real.sqrt 3 / 24 < 0.22675 := by nlinarith
  constructor
  · rw [binary_effect_size_quarter]
    have hgoal : convert_effect_size_for_binary_outcome EffectType.absolute
        (Real.pi / 6) (1/4)
        = round2 ((min (max ((1/4 : ℝ) + Real.pi / 6 * Real.sqrt ((1/4 : ℝ) * (1 - 1/4))) 0) 1
            - 1/4) * 100) := rfl
    rw [hgoal,
      show Real.pi / 6 * Real.sqrt ((1/4 : ℝ) * (1 - 1/4)) = Real.pi * Real.sqrt 3 / 24 by
        rw [show ((1/4 : ℝ) * (1 - 1/4)) = 3/16 by norm_num, sqrt_three_sixteenths]; ring]
    rw [max_eq_left (by linarith), min_eq_left (by linarith)]
    rw [show ((1/4 : ℝ) + Real.pi * Real.sqrt 3 / 24 - 1/4) * 100
        = Real.pi * Real.sqrt 3 / 24 * 100 by ring]
    unfold round2
    have hround : round (Real.pi * Real.sqrt 3 / 24 * 100 * 100) = (2267 : ℤ) := by
      rw [round_eq, Int.floor_eq_iff]
      constructor
      · push_cast
        nlinarith
      · push_cast
        nlinarith
    rw [hround]
    norm_num
  · rw [abs_of_neg (by norm_num : (2267/100 : ℝ) - 25 < 0)]
    norm_num

/-- C7 (amended): the round-trip reproduces mde·100 exactly at mde = 0, and in
general returns `round2` of 100·(clip(p + h·√(p(1−p)), 0, 1) − p) where
h = 2·(arcsin √(p+mde) − arcsin √p) is the arcsine effect size — a first-order
approximation of mde·100 that is not within the rounding tolerance in
general. -/
theorem binary_roundtrip_spec (p mde : ℝ) (hp0 : 0 < p) (hp1 : p < 1) :
    convert_effect_size_for_binary_outcome EffectType.absolute
        (binary_effect_size EffectType.absolute p 0) p = 0
    ∧ convert_effect_size_for_binary_outcome EffectType.absolute
        (binary_effect_size EffectType.absolute p mde) p
      = round2 ((min (max (p + 2 * (Real.arcsin (Real.sqrt (p + mde))
            - Real.arcsin (Real.sqrt p)) * Real.sqrt (p * (1 - p))) 0) 1 - p) * 100) := by
  constructor
  · have hes0 : binary_effect_size EffectType.absolute p 0 = 0 := by
      have h : binary_effect_size EffectType.absolute p 0
          = 2 * (Real.arcsin (Real.sqrt (p + 0)) - Real.arcsin (Real.sqrt p)) := rfl
      rw [h, add_zero]
      ring
    rw [hes0]
    have h : convert_effect_size_for_binary_outcome EffectType.absolute 0 p
        = round2 ((min (max (p + 0 * Real.sqrt (p * (1 - p))) 0) 1 - p) * 100) := rfl
    rw [h, zero_mul, add_zero, max_eq_left hp0.le, min_eq_left hp1.le, sub_self, zero_mul]
    simp [round2]
  · rfl

/-- C7 witness: the amended statement instantiated at p = 1/2. -/
theorem binary_roundtrip_spec_witness :
    (0 : ℝ) < 1/2 ∧ (1/2 : ℝ) < 1 ∧
      convert_effect_size_for_binary_outcome EffectType.absolute
        (binary_effect_size EffectType.absolute (1/2) 0) (1/2) = 0 :=
  ⟨by norm_num, by norm_num,
    (binary_roundtrip_spec (1/2) 0 (by norm_num) (by norm_num)).1⟩

/-- Strict monotonicity of x ↦ arcsin √x on [0, 1]. -/
theorem arcsin_sqrt_lt (a b : ℝ) (ha : 0 ≤ a) (hab : a < b) (hb : b ≤ 1) :
    Real.arcsin (Real.sqrt a) < Real.arcsin (Real.sqrt b) := by
  have hsa_mem : Real.sqrt a ∈ Set.Icc (-1 : ℝ) 1 :=
    ⟨by linarith [Real.sqrt_nonneg a], Real.sqrt_le_one.mpr (by linarith)⟩
  have hsb_mem : Real.sqrt b ∈ Set.Icc (-1 : ℝ) 1 :=
    ⟨by linarith [Real.sqrt_nonneg b], Real.sqrt_le_one.mpr hb⟩
  exact Real.strictMonoOn_arcsin hsa_mem hsb_mem (Real.sqrt_lt_sqrt ha hab)

/-- C10: with p ∈ (0,1) and each shifted proportion in (0,1), the absolute
binary effect size 2·(arcsin √(p+mde) − arcsin √p) is strictly increasing in
mde, vanishes exactly at mde = 0, is positive for positive mde and negative
for negative mde — the standardized binary effect size is signed. -/
theorem binary_effect_size_mono (p m1 m2 m : ℝ) (hp0 : 0 < p) (hp1 : p < 1)
    (h10 : 0 < p + m1) (_h11 : p + m1 < 1) (_h20 : 0 < p + m2) (h21 : p + m2 < 1)
    (hm0 : 0 < p + m) (hm1 : p + m < 1) (h12 : m1 < m2) :
    binary_effect_size EffectType.absolute p m1 < binary_effect_size EffectType.absolute p m2
    ∧ (binary_effect_size EffectType.absolute p m = 0 ↔ m = 0)
    ∧ (0 < m → 0 < binary_effect_size EffectType.absolute p m)
    ∧ (m < 0 → binary_effect_size EffectType.absolute p m < 0) := by
  have hunf : ∀ x : ℝ, binary_effect_size EffectType.absolute p x
      = 2 * (Real.arcsin (Real.sqrt (p + x)) - Real.arcsin (Real.sqrt p)) := fun x => rfl
  have key : ∀ x y : ℝ, 0 < p + x → p + y < 1 → x < y →
      binary_effect_size EffectType.absolute p x
        < binary_effect_size EffectType.absolute p y := by
    intro x y hx hy hxy
    rw [hunf, hunf]
    have := arcsin_sqrt_lt (p + x) (p + y) hx.le (by linarith) hy.le
    linarith
  have hzero : binary_effect_size EffectType.absolute p 0 = 0 := by
    rw [hunf, add_zero]
    ring
  have hpos : 0 < m → 0 < binary_effect_size EffectType.absolute p m := by
    intro hm
    have := key 0 m (by linarith) hm1 hm
    rw [hzero] at this
    exact this
  have hneg : m < 0 → binary_effect_size EffectType.absolute p m < 0 := by
    intro hm
    have := key m 0 hm0 (by linarith) hm
    rw [hzero] at this
    exact this
  refine ⟨key m1 m2 h10 h21 h12, ⟨?_, ?_⟩, hpos, hneg⟩
  · intro h0
    rcases lt_trichotomy m 0 with h | h | h
    · have := hneg h
      linarith
    · exact h
    · have := hpos h
      linarith
  · intro hm'
    rw [hm', hzero]

/-- C10 witness: strict increase of the binary effect size between mde = 0 and
mde = 1/4 at baseline p = 1/4. -/
theorem binary_effect_size_mono_witness :
    (0 : ℝ) < 1/4 ∧ (1/4 : ℝ) < 1 ∧
      binary_effect_size EffectType.absolute (1/4) 0
        < binary_effect_size EffectType.absolute (1/4) (1/4) :=
  ⟨by norm_num, by norm_num,
    (binary_effect_size_mono (1/4) 0 (1/4) (1/4) (by norm_num) (by norm_num) (by norm_num)
      (by norm_num) (by norm_num) (by norm_num) (by norm_num) (by norm_num) (by norm_num)).1⟩

/-- C9: the code accepts a binary summary table whose success count exceeds
the sample size — `valid_summary_data` returns `true` for a single group with
sample size 10 and 20 successes, contradicting the guarantee that accepted
tables satisfy successes ≤ sample size. -/
theorem valid_summary_data_bug :
    valid_summary_data [⟨10, 20, 0, 0⟩] OutcomeType.binary = true ∧
      ¬ ((20 : ℚ) ≤ 10) := by
  constructor
  · decide
  · decide
